import Mathlib

/-!
Shallow embedding of the `uart_16550` driver (rust-osdev/uart_16550).

The driver manipulates six byte-wide UART registers through a register
capability (`read`/`write`).  We model a run of the driver as explicit
state passing over `UartState`: hardware reads are fed by oracles
(`lsts` for the line-status register, `dataIn` for the data register,
each consumed in order), and every hardware access is recorded, in
order, in an event log.  Bytes are `Nat` values; where the source
masks to a machine width we write the mask (`% 256`, `&&& 0xFF`)
explicitly.

Busy-wait loops (`retry_until_ok!`, `wait_for!`) are unbounded in the
source; we embed them with an explicit fuel argument and quantify over
sufficient fuel in the theorems.
-/

/-- The six registers of a 16550 register set, in the order they are laid
out from the base address. -/
inductive Reg
  | data
  | intEn
  | fifoCtrl
  | lineCtrl
  | modemCtrl
  | lineSts
deriving DecidableEq

/-- A hardware access: a register write with the value written, or a
register read with the value the hardware returned. -/
inductive Event
  | write (r : Reg) (v : Nat)
  | read (r : Reg) (v : Nat)
deriving DecidableEq

/-- State of a run of the driver: read oracles for the two readable
registers (indexed by how many reads of that register happened so far)
and the log of all hardware accesses performed so far. -/
structure UartState where
  lsts : Nat → Nat
  lstsIdx : Nat
  dataIn : Nat → Nat
  dataIdx : Nat
  events : List Event

/-- Write a value to a register: pure side effect, recorded in the log. -/
def writeReg (r : Reg) (v : Nat) (s : UartState) : UartState :=
  { s with events := s.events ++ [Event.write r v] }

/-- Read the line-status register: the oracle supplies the raw byte. -/
def readLineSts (s : UartState) : Nat × UartState :=
  let v := s.lsts s.lstsIdx
  (v, { s with lstsIdx := s.lstsIdx + 1
               events := s.events ++ [Event.read Reg.lineSts v] })

/-- Read the data register: the oracle supplies the raw byte. -/
def readData (s : UartState) : Nat × UartState :=
  let v := s.dataIn s.dataIdx
  (v, { s with dataIdx := s.dataIdx + 1
               events := s.events ++ [Event.read Reg.data v] })

namespace LineStsFlags

/-- `LineStsFlags::INPUT_FULL = 1` -/
def INPUT_FULL : Nat := 1

/-- `LineStsFlags::OUTPUT_EMPTY = 1 << 5` -/
def OUTPUT_EMPTY : Nat := 1 <<< 5

/-- The union of all defined `LineStsFlags` bits (all eight bits are
defined in the source). -/
def ALL : Nat := 0xFF

/-- `LineStsFlags::from_bits_truncate`: keep the defined bits. -/
def from_bits_truncate (v : Nat) : Nat := v &&& ALL

end LineStsFlags

/-- `bitflags` `contains`: all bits of `flag` are set in `bits`. -/
def flagsContain (bits flag : Nat) : Bool := bits &&& flag == flag

/-- `line_sts()`: read the line-status register once and decode it with
`from_bits_truncate` (identical in `uart_16550.rs`, `mmio.rs`,
`port.rs` and `x86_64.rs`). -/
def line_sts (s : UartState) : Nat × UartState :=
  let p := readLineSts s
  (LineStsFlags.from_bits_truncate p.1, p.2)

/-- The `WouldBlockError` unit error type of the non-blocking API. -/
inductive WouldBlockError
  | mk
deriving DecidableEq

/-- `init()`: the fixed eight-write bring-up sequence (identical in
`uart_16550.rs`, `mmio.rs`, `port.rs` and `x86_64.rs`). -/
def init (s : UartState) : UartState :=
  -- Disable interrupts
  let s := writeReg Reg.intEn 0x00 s
  -- Enable DLAB
  let s := writeReg Reg.lineCtrl 0x80 s
  -- Set maximum speed to 38400 bps by configuring DLL and DLM
  let s := writeReg Reg.data 0x03 s
  let s := writeReg Reg.intEn 0x00 s
  -- Disable DLAB and set data word length to 8 bits
  let s := writeReg Reg.lineCtrl 0x03 s
  -- Enable FIFO, clear TX/RX queues, interrupt watermark at 14 bytes
  let s := writeReg Reg.fifoCtrl 0xC7 s
  -- Mark data terminal ready, signal request to send, aux output #2
  let s := writeReg Reg.modemCtrl 0x0B s
  -- Enable interrupts
  writeReg Reg.intEn 0x01 s

/-- `try_send_raw(data)`: poll line-status once; write the byte if the
transmit holding register is empty, otherwise report would-block. -/
def trySendRaw (data : Nat) (s : UartState) : Except WouldBlockError Unit × UartState :=
  let p := line_sts s
  if flagsContain p.1 LineStsFlags.OUTPUT_EMPTY then
    (Except.ok (), writeReg Reg.data data p.2)
  else
    (Except.error WouldBlockError.mk, p.2)

/-- `try_receive()`: poll line-status once; read and return the data
byte if one is ready, otherwise report would-block. -/
def tryReceive (s : UartState) : Except WouldBlockError Nat × UartState :=
  let p := line_sts s
  if flagsContain p.1 LineStsFlags.INPUT_FULL then
    let q := readData p.2
    (Except.ok q.1, q.2)
  else
    (Except.error WouldBlockError.mk, p.2)

/-- `send_raw(data)`, i.e. `retry_until_ok!(self.try_send_raw(data))`:
keep retrying the non-blocking send until it succeeds.  The source loop
is unbounded; `fuel` bounds the number of attempts in the embedding and
`none` means the fuel ran out before the device became ready. -/
def sendRaw : Nat → Nat → UartState → Option UartState
  | 0, _, _ => none
  | fuel + 1, data, s =>
    match trySendRaw data s with
    | (Except.ok _, s') => some s'
    | (Except.error _, s') => sendRaw fuel data s'

/-- `receive()`, i.e. `retry_until_ok!(self.try_receive())`. -/
def receive : Nat → UartState → Option (Nat × UartState)
  | 0, _ => none
  | fuel + 1, s =>
    match tryReceive s with
    | (Except.ok d, s') => some (d, s')
    | (Except.error _, s') => receive fuel s'

/-- `send(data)` of `uart_16550.rs` and `mmio.rs`: backspace (8) and
delete (0x7F) are replaced by the three raw sends 8, space, 8; every
other byte is sent raw unchanged. -/
def send (fuel data : Nat) (s : UartState) : Option UartState :=
  if data = 8 ∨ data = 0x7F then
    (sendRaw fuel 8 s).bind fun s =>
    (sendRaw fuel 0x20 s).bind fun s =>
    sendRaw fuel 8 s
  else
    sendRaw fuel data s

/-- `send(data)` of `port.rs`: as `send`, but additionally a line feed
(0x0A) is replaced by the two raw sends 0x0D, 0x0A. -/
def portSend (fuel data : Nat) (s : UartState) : Option UartState :=
  if data = 8 ∨ data = 0x7F then
    (sendRaw fuel 8 s).bind fun s =>
    (sendRaw fuel 0x20 s).bind fun s =>
    sendRaw fuel 8 s
  else if data = 0x0A then
    (sendRaw fuel 0x0D s).bind fun s =>
    sendRaw fuel 0x0A s
  else
    sendRaw fuel data s

/-- `wait_for!(self.line_sts().contains(LineStsFlags::OUTPUT_EMPTY))`
of `x86_64.rs`: poll line-status until the transmit holding register is
empty. -/
def waitFor : Nat → UartState → Option UartState
  | 0, _ => none
  | fuel + 1, s =>
    let p := line_sts s
    if flagsContain p.1 LineStsFlags.OUTPUT_EMPTY then some p.2
    else waitFor fuel p.2

/-- `send(data)` of `x86_64.rs`: inline wait-then-write, with the same
backspace/delete replacement as the other variants. -/
def x86Send (fuel data : Nat) (s : UartState) : Option UartState :=
  if data = 8 ∨ data = 0x7F then
    (waitFor fuel s).bind fun s =>
    let s := writeReg Reg.data 8 s
    (waitFor fuel s).bind fun s =>
    let s := writeReg Reg.data 0x20 s
    (waitFor fuel s).map fun s =>
    writeReg Reg.data 8 s
  else
    (waitFor fuel s).map fun s =>
    writeReg Reg.data data s

/-- `write_str(s)` (the `fmt::Write` impl, identical in
`uart_16550.rs`, `mmio.rs` and `port.rs`): send every byte of the
string through `send`, in order, then return `Ok(())`. -/
def write_str (fuel : Nat) (bytes : List Nat) (s : UartState) :
    Option (Except Unit Unit × UartState) :=
  match bytes with
  | [] => some (Except.ok (), s)
  | b :: rest => (send fuel b s).bind fun s' => write_str fuel rest s'

namespace DivisorLatchLeastFlags

/-- `DivisorLatchLeastFlags::BAUD_50 = 0x00` -/
def BAUD_50 : Nat := 0x00
/-- `DivisorLatchLeastFlags::BAUD_300 = 0x80` -/
def BAUD_300 : Nat := 0x80
/-- `DivisorLatchLeastFlags::BAUD_1200 = 0x60` -/
def BAUD_1200 : Nat := 0x60
/-- `DivisorLatchLeastFlags::BAUD_2400 = 0x30` -/
def BAUD_2400 : Nat := 0x30
/-- `DivisorLatchLeastFlags::BAUD_4800 = 0x18` -/
def BAUD_4800 : Nat := 0x18
/-- `DivisorLatchLeastFlags::BAUD_9600 = 0x0C` -/
def BAUD_9600 : Nat := 0x0C
/-- `DivisorLatchLeastFlags::BAUD_19200 = 0x06` -/
def BAUD_19200 : Nat := 0x06
/-- `DivisorLatchLeastFlags::BAUD_38400 = 0x03` -/
def BAUD_38400 : Nat := 0x03
/-- `DivisorLatchLeastFlags::BAUD_57600 = 0x02` -/
def BAUD_57600 : Nat := 0x02
/-- `DivisorLatchLeastFlags::BAUD_115200 = 0x01` -/
def BAUD_115200 : Nat := 0x01

end DivisorLatchLeastFlags

namespace DivisorLatchMostFlags

/-- `DivisorLatchMostFlags::BAUD_50 = 0x09` -/
def BAUD_50 : Nat := 0x09
/-- `DivisorLatchMostFlags::BAUD_300 = 0x01` -/
def BAUD_300 : Nat := 0x01
/-- `DivisorLatchMostFlags::BAUD_1200_115200 = 0x00` -/
def BAUD_1200_115200 : Nat := 0x00

end DivisorLatchMostFlags

/-- `DivisorLatchFlags::validate`: the `match` over the (dll, dlm) pair
in `lib.rs`, with the named constants resolved to their byte values.
`dll` and `dlm` are the two bytes held by the pair. -/
def validate (dll dlm : Nat) : Bool :=
  (dll == DivisorLatchLeastFlags.BAUD_50 && dlm == DivisorLatchMostFlags.BAUD_50) ||
  (dll == DivisorLatchLeastFlags.BAUD_300 && dlm == DivisorLatchMostFlags.BAUD_300) ||
  (dll == DivisorLatchLeastFlags.BAUD_1200 && dlm == DivisorLatchMostFlags.BAUD_1200_115200) ||
  (dll == DivisorLatchLeastFlags.BAUD_2400 && dlm == DivisorLatchMostFlags.BAUD_1200_115200) ||
  (dll == DivisorLatchLeastFlags.BAUD_4800 && dlm == DivisorLatchMostFlags.BAUD_1200_115200) ||
  (dll == DivisorLatchLeastFlags.BAUD_9600 && dlm == DivisorLatchMostFlags.BAUD_1200_115200) ||
  (dll == DivisorLatchLeastFlags.BAUD_19200 && dlm == DivisorLatchMostFlags.BAUD_1200_115200) ||
  (dll == DivisorLatchLeastFlags.BAUD_38400 && dlm == DivisorLatchMostFlags.BAUD_1200_115200) ||
  (dll == DivisorLatchLeastFlags.BAUD_57600 && dlm == DivisorLatchMostFlags.BAUD_1200_115200) ||
  (dll == DivisorLatchLeastFlags.BAUD_115200 && dlm == DivisorLatchMostFlags.BAUD_1200_115200)

/-- The ten documented (low, high) divisor-latch byte combinations. -/
def validPairs : List (Nat × Nat) :=
  [(0x00, 0x09), (0x80, 0x01), (0x60, 0x00), (0x30, 0x00), (0x18, 0x00),
   (0x0C, 0x00), (0x06, 0x00), (0x03, 0x00), (0x02, 0x00), (0x01, 0x00)]

/-- The six register addresses of a memory-mapped register set
(`MmioSerialPort`).  Addresses are `usize` pointers; we model them as
64-bit machine words. -/
structure MmioSerialPort where
  data : Nat
  int_en : Nat
  fifo_ctrl : Nat
  line_ctrl : Nat
  modem_ctrl : Nat
  line_sts : Nat
deriving DecidableEq

/-- `usize` width: the addresses are 64-bit on the targets modelled. -/
def USIZE_MOD : Nat := 2 ^ 64

/-- `MmioSerialPort::new_with_stride(base, stride)`: six pointers at
`base + i * stride`, computed in `usize` arithmetic. -/
def new_with_stride (base stride : Nat) : MmioSerialPort :=
  { data := base % USIZE_MOD
    int_en := (base + 1 * stride) % USIZE_MOD
    fifo_ctrl := (base + 2 * stride) % USIZE_MOD
    line_ctrl := (base + 3 * stride) % USIZE_MOD
    modem_ctrl := (base + 4 * stride) % USIZE_MOD
    line_sts := (base + 5 * stride) % USIZE_MOD }

/-- `MmioSerialPort::new(base)`: stride defaults to 1. -/
def mmioNew (base : Nat) : MmioSerialPort := new_with_stride base 1

/-- `u16` width, for the port numbers of the port-mapped variants. -/
def U16_MOD : Nat := 2 ^ 16

/-- `SerialPort::port_base` of `port.rs`: the stored base port. -/
def port_base (base : Nat) : Nat := base % U16_MOD

/-- `SerialPort::port_data` of `port.rs`. -/
def port_data (base : Nat) : Nat := port_base base

/-- `SerialPort::port_int_en` of `port.rs`. -/
def port_int_en (base : Nat) : Nat := (port_base base + 1) % U16_MOD

/-- `SerialPort::port_fifo_ctrl` of `port.rs`. -/
def port_fifo_ctrl (base : Nat) : Nat := (port_base base + 2) % U16_MOD

/-- `SerialPort::port_line_ctrl` of `port.rs`. -/
def port_line_ctrl (base : Nat) : Nat := (port_base base + 3) % U16_MOD

/-- `SerialPort::port_modem_ctrl` of `port.rs`. -/
def port_modem_ctrl (base : Nat) : Nat := (port_base base + 4) % U16_MOD

/-- `SerialPort::port_line_sts` of `port.rs`. -/
def port_line_sts (base : Nat) : Nat := (port_base base + 5) % U16_MOD

/-- The six I/O port numbers of the `x86_64.rs` `SerialPort`. -/
structure X86SerialPort where
  data : Nat
  int_en : Nat
  fifo_ctrl : Nat
  line_ctrl : Nat
  modem_ctrl : Nat
  line_sts : Nat
deriving DecidableEq

/-- `SerialPort::new(base)` of `x86_64.rs`: six ports at `base + i`, in
`u16` arithmetic. -/
def x86New (base : Nat) : X86SerialPort :=
  { data := base % U16_MOD
    int_en := (base + 1) % U16_MOD
    fifo_ctrl := (base + 2) % U16_MOD
    line_ctrl := (base + 3) % U16_MOD
    modem_ctrl := (base + 4) % U16_MOD
    line_sts := (base + 5) % U16_MOD }

/-- `SerialPort::loopback_test` of `port.rs`: disable interrupts, enter
loopback mode, write 0xAE to the data port, read it back; fail if the
read differs from 0xAE, otherwise restore modem control and interrupts
and succeed. -/
def loopback_test (s : UartState) : Except Unit Unit × UartState :=
  -- Disable interrupts
  let s := writeReg Reg.intEn 0x00 s
  -- Set the serial port into loopback mode
  let s := writeReg Reg.modemCtrl 0x1E s
  -- write 0xAE to the data port
  let s := writeReg Reg.data 0xAE s
  -- read back the value we just wrote
  let q := readData s
  if q.1 != 0xAE then
    (Except.error (), q.2)
  else
    -- Mark data terminal ready, signal request to send, aux output #2
    let s := writeReg Reg.modemCtrl 0x0B q.2
    -- Enable interrupts
    let s := writeReg Reg.intEn 0x01 s
    (Except.ok (), s)

/-- `SerialPort::try_create(base)` of `port.rs`: construct the port,
run `init`, then the loopback test; propagate its failure, otherwise
return the constructed port (represented by its base). -/
def try_create (base : Nat) (s : UartState) : Except Unit Nat × UartState :=
  let port := base % U16_MOD
  let s := init s
  match loopback_test s with
  | (Except.error e, s) => (Except.error e, s)
  | (Except.ok _, s) => (Except.ok port, s)

/-- The values written to the data register, in order, in a log. -/
def dataWrites (l : List Event) : List Nat :=
  l.filterMap fun e =>
    match e with
    | Event.write Reg.data v => some v
    | _ => none

/-- The eight writes of the `init` sequence, in order. -/
def initWrites : List Event :=
  [Event.write Reg.intEn 0x00, Event.write Reg.lineCtrl 0x80,
   Event.write Reg.data 0x03, Event.write Reg.intEn 0x00,
   Event.write Reg.lineCtrl 0x03, Event.write Reg.fifoCtrl 0xC7,
   Event.write Reg.modemCtrl 0x0B, Event.write Reg.intEn 0x01]

/-- The line-status polls a busy-wait performs: `n` successive reads of
the line-status oracle `f` starting at read position `i`. -/
def pollReads (f : Nat → Nat) (i : Nat) : Nat → List Event
  | 0 => []
  | n + 1 => Event.read Reg.lineSts (f i) :: pollReads f (i + 1) n

/-- A line-status trace in which the output-empty bit is eventually set
after any point, so that every busy-wait for it terminates. -/
def EventuallyReady (s : UartState) : Prop :=
  ∀ i, ∃ j, Nat.testBit (s.lsts (i + j)) 5 = true

/-- The data bytes `send(b)` emits: the terminal-oriented expansion. -/
def sendExpansion (b : Nat) : List Nat :=
  if b = 8 ∨ b = 0x7F then [8, 0x20, 8] else [b]

/-- A state whose line status always reports output-empty (0x20), with
data reads returning 0x55 and an empty log. -/
def readyState : UartState :=
  { lsts := fun _ => 0x20, lstsIdx := 0, dataIn := fun _ => 0x55, dataIdx := 0, events := [] }

/-- A state whose line status always reads 0: the device is never ready. -/
def idleState : UartState :=
  { lsts := fun _ => 0, lstsIdx := 0, dataIn := fun _ => 0x55, dataIdx := 0, events := [] }

/-- A state whose line status always reports data-ready (bit 0). -/
def rxReadyState : UartState :=
  { lsts := fun _ => 1, lstsIdx := 0, dataIn := fun _ => 0x55, dataIdx := 0, events := [] }

/-- The polling scenario of the spec: line status reads 0 on the first
poll and 0x20 (output-empty) on every later poll. -/
def scenarioState : UartState :=
  { lsts := fun k => if k = 0 then 0 else 0x20, lstsIdx := 0,
    dataIn := fun _ => 0, dataIdx := 0, events := [] }

/-- A state whose data reads return 0xAE: the loopback test succeeds. -/
def loopbackOkState : UartState :=
  { lsts := fun _ => 0x20, lstsIdx := 0, dataIn := fun _ => 0xAE, dataIdx := 0, events := [] }

/-! Bridge lemmas: `bitflags` decoding versus single-bit tests. -/

theorem flagsContain_outputEmpty (v : Nat) :
    flagsContain (LineStsFlags.from_bits_truncate v) LineStsFlags.OUTPUT_EMPTY =
      Nat.testBit v 5 := by
  have h1 : LineStsFlags.from_bits_truncate v &&& LineStsFlags.OUTPUT_EMPTY = v &&& 2 ^ 5 := by
    simp only [LineStsFlags.from_bits_truncate, LineStsFlags.OUTPUT_EMPTY, LineStsFlags.ALL]
    rw [Nat.and_assoc]
    congr 1
  simp only [flagsContain, h1, Nat.and_two_pow]
  cases v.testBit 5 <;> simp <;> decide

theorem flagsContain_inputFull (v : Nat) :
    flagsContain (LineStsFlags.from_bits_truncate v) LineStsFlags.INPUT_FULL =
      Nat.testBit v 0 := by
  have h1 : LineStsFlags.from_bits_truncate v &&& LineStsFlags.INPUT_FULL = v &&& 2 ^ 0 := by
    simp only [LineStsFlags.from_bits_truncate, LineStsFlags.INPUT_FULL, LineStsFlags.ALL]
    rw [Nat.and_assoc]
    congr 1
  simp only [flagsContain, h1, Nat.and_two_pow]
  cases v.testBit 0 <;> simp <;> decide

/-- Claim C1: for every register-set state, `init()` performs exactly the
eight register writes interrupt-enable 0x00, line-control 0x80, data 0x03,
interrupt-enable 0x00, line-control 0x03, FIFO-control 0xC7, modem-control
0x0B, interrupt-enable 0x01, in this order and no others, and performs no
register read (both read cursors and both oracles are untouched). -/
theorem init_exact_writes (s : UartState) :
    (init s).events = s.events ++ initWrites ∧
    (init s).lstsIdx = s.lstsIdx ∧
    (init s).dataIdx = s.dataIdx ∧
    (init s).lsts = s.lsts ∧
    (init s).dataIn = s.dataIn ∧
    initWrites =
      [Event.write Reg.intEn 0x00, Event.write Reg.lineCtrl 0x80,
       Event.write Reg.data 0x03, Event.write Reg.intEn 0x00,
       Event.write Reg.lineCtrl 0x03, Event.write Reg.fifoCtrl 0xC7,
       Event.write Reg.modemCtrl 0x0B, Event.write Reg.intEn 0x01] ∧
    initWrites.length = 8 := by
  refine ⟨?_, ?_, ?_, ?_, ?_, rfl, rfl⟩ <;> simp [init, writeReg, initWrites]

/-- Claim C3: `try_send_raw(b)` polls line-status once; if the
output-empty bit (bit 5) is clear it returns the would-block error having
performed no write at all, and if the bit is set it returns success having
performed exactly one write, of `b`, to the data register. -/
theorem trySendRaw_blocks_or_writes (s : UartState) (b : Nat) :
    (Nat.testBit (s.lsts s.lstsIdx) 5 = false →
      trySendRaw b s =
        (Except.error WouldBlockError.mk,
         { s with lstsIdx := s.lstsIdx + 1
                  events := s.events ++ [Event.read Reg.lineSts (s.lsts s.lstsIdx)] })) ∧
    (Nat.testBit (s.lsts s.lstsIdx) 5 = true →
      trySendRaw b s =
        (Except.ok (),
         { s with lstsIdx := s.lstsIdx + 1
                  events := s.events ++ [Event.read Reg.lineSts (s.lsts s.lstsIdx),
                                         Event.write Reg.data b] })) := by
  constructor <;> intro h <;>
    simp [trySendRaw, line_sts, readLineSts, writeReg, flagsContain_outputEmpty, h]

/-- Claim C4: `try_receive()` polls line-status once; if the data-ready
bit (bit 0) is set it performs exactly one read of the data register and
returns the byte read, and if the bit is clear it returns the would-block
error without touching the data register. -/
theorem tryReceive_blocks_or_reads (s : UartState) :
    (Nat.testBit (s.lsts s.lstsIdx) 0 = true →
      tryReceive s =
        (Except.ok (s.dataIn s.dataIdx),
         { s with lstsIdx := s.lstsIdx + 1
                  dataIdx := s.dataIdx + 1
                  events := s.events ++ [Event.read Reg.lineSts (s.lsts s.lstsIdx),
                                         Event.read Reg.data (s.dataIn s.dataIdx)] })) ∧
    (Nat.testBit (s.lsts s.lstsIdx) 0 = false →
      tryReceive s =
        (Except.error WouldBlockError.mk,
         { s with lstsIdx := s.lstsIdx + 1
                  events := s.events ++ [Event.read Reg.lineSts (s.lsts s.lstsIdx)] })) := by
  constructor <;> intro h <;>
    simp [tryReceive, line_sts, readLineSts, readData, writeReg, flagsContain_inputFull, h]

/-- Claim C7: `validate()` on a divisor-latch byte pair returns true if
and only if the pair is one of the ten documented (low, high)
combinations; every other byte pair, including pairs such as
(0x80, 0x00) whose bytes each occur in some valid pair, yields false. -/
theorem validate_iff_validPair (dll dlm : Nat) :
    validate dll dlm = true ↔ (dll, dlm) ∈ validPairs := by
  simp only [validate, validPairs,
    DivisorLatchLeastFlags.BAUD_50, DivisorLatchLeastFlags.BAUD_300,
    DivisorLatchLeastFlags.BAUD_1200, DivisorLatchLeastFlags.BAUD_2400,
    DivisorLatchLeastFlags.BAUD_4800, DivisorLatchLeastFlags.BAUD_9600,
    DivisorLatchLeastFlags.BAUD_19200, DivisorLatchLeastFlags.BAUD_38400,
    DivisorLatchLeastFlags.BAUD_57600, DivisorLatchLeastFlags.BAUD_115200,
    DivisorLatchMostFlags.BAUD_50, DivisorLatchMostFlags.BAUD_300,
    DivisorLatchMostFlags.BAUD_1200_115200,
    List.mem_cons, List.not_mem_nil, or_false, Prod.mk.injEq,
    Bool.or_eq_true, Bool.and_eq_true, beq_iff_eq, or_assoc]

/-- Claim C8: register-set construction with base B and stride S yields
the six register addresses B, B+S, ..., B+5S mapped to data,
interrupt-enable, FIFO-control, line-control, modem-control, line-status
in that order (whenever the last address fits the machine word, i.e.
the arithmetic does not wrap); the port-mapped constructors and the
default memory-mapped constructor use stride 1. -/
theorem register_layout (base stride : Nat) :
    (base + 5 * stride < USIZE_MOD →
      new_with_stride base stride =
        { data := base, int_en := base + stride, fifo_ctrl := base + 2 * stride,
          line_ctrl := base + 3 * stride, modem_ctrl := base + 4 * stride,
          line_sts := base + 5 * stride }) ∧
    mmioNew base = new_with_stride base 1 ∧
    (base + 5 < U16_MOD →
      port_data base = base ∧ port_int_en base = base + 1 ∧
      port_fifo_ctrl base = base + 2 ∧ port_line_ctrl base = base + 3 ∧
      port_modem_ctrl base = base + 4 ∧ port_line_sts base = base + 5 ∧
      x86New base =
        { data := base, int_en := base + 1, fifo_ctrl := base + 2,
          line_ctrl := base + 3, modem_ctrl := base + 4, line_sts := base + 5 }) := by
  refine ⟨fun h => ?_, rfl, fun h => ?_⟩
  · simp only [USIZE_MOD] at h
    simp only [new_with_stride, MmioSerialPort.mk.injEq, USIZE_MOD]
    refine ⟨?_, ?_, ?_, ?_, ?_, ?_⟩ <;> (rw [Nat.mod_eq_of_lt] <;> omega)
  · simp only [U16_MOD] at h
    simp only [port_data, port_int_en, port_fifo_ctrl, port_line_ctrl,
      port_modem_ctrl, port_line_sts, port_base, x86New, X86SerialPort.mk.injEq, U16_MOD]
    refine ⟨?_, ?_, ?_, ?_, ?_, ?_, ?_, ?_, ?_, ?_, ?_, ?_⟩ <;>
      (rw [Nat.mod_eq_of_lt] <;> omega)

/-- Claim C10: `try_create(base)` runs the full `init` write sequence,
then the loopback test (interrupt-enable 0x00, modem-control 0x1E, data
0xAE, then exactly one read of the data port); it returns `Err(())` if
and only if the byte read back differs from 0xAE, and otherwise writes
0x0B to modem-control and 0x01 to interrupt-enable and returns `Ok` with
the constructed port. -/
theorem try_create_loopback (base : Nat) (s : UartState) :
    ((try_create base s).1 = Except.error () ↔ s.dataIn s.dataIdx ≠ 0xAE) ∧
    (s.dataIn s.dataIdx = 0xAE →
      try_create base s =
        (Except.ok (base % U16_MOD),
         { s with dataIdx := s.dataIdx + 1
                  events := s.events ++ initWrites ++
                    [Event.write Reg.intEn 0x00, Event.write Reg.modemCtrl 0x1E,
                     Event.write Reg.data 0xAE, Event.read Reg.data 0xAE,
                     Event.write Reg.modemCtrl 0x0B, Event.write Reg.intEn 0x01] })) ∧
    (s.dataIn s.dataIdx ≠ 0xAE →
      try_create base s =
        (Except.error (),
         { s with dataIdx := s.dataIdx + 1
                  events := s.events ++ initWrites ++
                    [Event.write Reg.intEn 0x00, Event.write Reg.modemCtrl 0x1E,
                     Event.write Reg.data 0xAE,
                     Event.read Reg.data (s.dataIn s.dataIdx)] })) := by
  by_cases h : s.dataIn s.dataIdx = 0xAE <;>
    simp [try_create, init, loopback_test, readData, writeReg, initWrites, h]

/-! The busy-wait send: characterization of `sendRaw`. -/

theorem sendRaw_poll_write (n : Nat) : ∀ (fuel b : Nat) (s : UartState),
    n < fuel →
    Nat.testBit (s.lsts (s.lstsIdx + n)) 5 = true →
    (∀ j, j < n → Nat.testBit (s.lsts (s.lstsIdx + j)) 5 = false) →
    sendRaw fuel b s = some
      { s with lstsIdx := s.lstsIdx + (n + 1)
               events := s.events ++ pollReads s.lsts s.lstsIdx (n + 1) ++
                 [Event.write Reg.data b] } := by
  induction n with
  | zero =>
    intro fuel b s hf hr _
    match fuel, hf with
    | fuel + 1, _ =>
      have hr0 : Nat.testBit (s.lsts s.lstsIdx) 5 = true := by simpa using hr
      simp [sendRaw, trySendRaw, line_sts, readLineSts, writeReg,
        flagsContain_outputEmpty, hr0, pollReads]
  | succ k ih =>
    intro fuel b s hf hr hnot
    match fuel, hf with
    | fuel + 1, hf =>
      have h0 : Nat.testBit (s.lsts s.lstsIdx) 5 = false := by
        simpa using hnot 0 (Nat.succ_pos k)
      set s1 : UartState :=
        { s with lstsIdx := s.lstsIdx + 1
                 events := s.events ++ [Event.read Reg.lineSts (s.lsts s.lstsIdx)] } with hs1
      have step : sendRaw (fuel + 1) b s = sendRaw fuel b s1 := by
        simp [sendRaw, trySendRaw, line_sts, readLineSts, flagsContain_outputEmpty, h0, hs1]
      have hr' : Nat.testBit (s1.lsts (s1.lstsIdx + k)) 5 = true := by
        show Nat.testBit (s.lsts (s.lstsIdx + 1 + k)) 5 = true
        rw [Nat.add_assoc, Nat.add_comm 1 k]; exact hr
      have hnot' : ∀ j, j < k → Nat.testBit (s1.lsts (s1.lstsIdx + j)) 5 = false := by
        intro j hj
        show Nat.testBit (s.lsts (s.lstsIdx + 1 + j)) 5 = false
        rw [Nat.add_assoc, Nat.add_comm 1 j]
        exact hnot (j + 1) (by omega)
      rw [step, ih fuel b s1 (by omega) hr' hnot']
      have harith : s1.lstsIdx + (k + 1) = s.lstsIdx + (k + 1 + 1) := by
        show s.lstsIdx + 1 + (k + 1) = s.lstsIdx + (k + 1 + 1)
        omega
      have hev : s1.events ++ pollReads s1.lsts s1.lstsIdx (k + 1) ++
          [Event.write Reg.data b] =
          s.events ++ pollReads s.lsts s.lstsIdx (k + 1 + 1) ++ [Event.write Reg.data b] := by
        show s.events ++ [Event.read Reg.lineSts (s.lsts s.lstsIdx)] ++
            pollReads s.lsts (s.lstsIdx + 1) (k + 1) ++ [Event.write Reg.data b] =
            s.events ++ pollReads s.lsts s.lstsIdx (k + 1 + 1) ++ [Event.write Reg.data b]
        simp [pollReads, List.append_assoc]
      simp only [Option.some.injEq, UartState.mk.injEq, hs1] at harith hev ⊢
      exact ⟨trivial, harith, trivial, trivial, hev⟩

theorem sendRaw_mono (fuel : Nat) : ∀ (fuel' b : Nat) (s s' : UartState),
    sendRaw fuel b s = some s' → fuel ≤ fuel' → sendRaw fuel' b s = some s' := by
  induction fuel with
  | zero =>
    intro fuel' b s s' h _
    simp [sendRaw] at h
  | succ f ih =>
    intro fuel' b s s' h hle
    match fuel', hle with
    | f' + 1, hle =>
      rw [sendRaw] at h ⊢
      cases hts : trySendRaw b s with
      | mk r s1 =>
        rw [hts] at h
        cases r with
        | ok u => simpa using h
        | error e => exact ih f' b s1 s' (by simpa using h) (by omega)

theorem dataWrites_append (l1 l2 : List Event) :
    dataWrites (l1 ++ l2) = dataWrites l1 ++ dataWrites l2 := by
  simp [dataWrites]

theorem dataWrites_nil : dataWrites [] = [] := rfl

theorem dataWrites_cons_read (r : Reg) (v : Nat) (l : List Event) :
    dataWrites (Event.read r v :: l) = dataWrites l := by
  simp [dataWrites]

theorem dataWrites_cons_write_data (v : Nat) (l : List Event) :
    dataWrites (Event.write Reg.data v :: l) = v :: dataWrites l := by
  simp [dataWrites]

theorem dataWrites_pollReads (f : Nat → Nat) (i n : Nat) :
    dataWrites (pollReads f i n) = [] := by
  induction n generalizing i with
  | zero => simp [pollReads, dataWrites]
  | succ k ih => rw [pollReads, dataWrites_cons_read, ih (i + 1)]

theorem sendRaw_run (b : Nat) (s : UartState) (h : EventuallyReady s) :
    ∃ fuel s' polls, sendRaw fuel b s = some s' ∧
      s'.lsts = s.lsts ∧ s'.dataIn = s.dataIn ∧ s'.dataIdx = s.dataIdx ∧
      s'.events = s.events ++ polls ++ [Event.write Reg.data b] ∧
      dataWrites polls = [] := by
  classical
  have hex := h s.lstsIdx
  have hr : Nat.testBit (s.lsts (s.lstsIdx + Nat.find hex)) 5 = true := Nat.find_spec hex
  have hnot : ∀ j, j < Nat.find hex →
      Nat.testBit (s.lsts (s.lstsIdx + j)) 5 = false := by
    intro j hj
    have hm := Nat.find_min hex hj
    simpa using hm
  refine ⟨Nat.find hex + 1, _, pollReads s.lsts s.lstsIdx (Nat.find hex + 1),
    sendRaw_poll_write (Nat.find hex) (Nat.find hex + 1) b s (by omega) hr hnot,
    rfl, rfl, rfl, rfl, dataWrites_pollReads _ _ _⟩

theorem sendRaw_eq_waitFor (fuel : Nat) : ∀ (b : Nat) (s : UartState),
    sendRaw fuel b s = (waitFor fuel s).map (writeReg Reg.data b) := by
  induction fuel with
  | zero => intro b s; simp [sendRaw, waitFor]
  | succ f ih =>
    intro b s
    simp only [sendRaw, waitFor, trySendRaw]
    by_cases hc : flagsContain (line_sts s).1 LineStsFlags.OUTPUT_EMPTY
    · simp [hc]
    · simp [hc, ih]

theorem send_mono (fuel fuel' b : Nat) (s s' : UartState)
    (h : send fuel b s = some s') (hle : fuel ≤ fuel') : send fuel' b s = some s' := by
  by_cases hb : b = 8 ∨ b = 0x7F
  · simp only [send, if_pos hb] at h ⊢
    cases h1 : sendRaw fuel 8 s with
    | none => rw [h1] at h; simp at h
    | some t1 =>
      rw [h1] at h
      simp only [Option.some_bind] at h
      cases h2 : sendRaw fuel 0x20 t1 with
      | none => rw [h2] at h; simp at h
      | some t2 =>
        rw [h2] at h
        simp only [Option.some_bind] at h
        rw [sendRaw_mono fuel fuel' 8 s t1 h1 hle]
        rw [Option.some_bind, sendRaw_mono fuel fuel' 0x20 t1 t2 h2 hle]
        rw [Option.some_bind]
        exact sendRaw_mono fuel fuel' 8 t2 s' h hle
  · simp only [send, if_neg hb] at h ⊢
    exact sendRaw_mono fuel fuel' b s s' h hle

theorem send_run (b : Nat) (s : UartState) (h : EventuallyReady s) :
    ∃ fuel s', send fuel b s = some s' ∧
      s'.lsts = s.lsts ∧ s'.dataIn = s.dataIn ∧ s'.dataIdx = s.dataIdx ∧
      dataWrites s'.events = dataWrites s.events ++ sendExpansion b := by
  by_cases hb : b = 8 ∨ b = 0x7F
  · obtain ⟨f1, s1, p1, h1, hl1, hd1, hi1, he1, hp1⟩ := sendRaw_run 8 s h
    have hE1 : EventuallyReady s1 := by intro i; rw [hl1]; exact h i
    obtain ⟨f2, s2, p2, h2, hl2, hd2, hi2, he2, hp2⟩ := sendRaw_run 0x20 s1 hE1
    have hE2 : EventuallyReady s2 := by intro i; rw [hl2, hl1]; exact h i
    obtain ⟨f3, s3, p3, h3, hl3, hd3, hi3, he3, hp3⟩ := sendRaw_run 8 s2 hE2
    have m1 : sendRaw (max f1 (max f2 f3)) 8 s = some s1 :=
      sendRaw_mono f1 _ 8 s s1 h1 (le_max_left _ _)
    have m2 : sendRaw (max f1 (max f2 f3)) 0x20 s1 = some s2 :=
      sendRaw_mono f2 _ 0x20 s1 s2 h2 (le_trans (le_max_left _ _) (le_max_right _ _))
    have m3 : sendRaw (max f1 (max f2 f3)) 8 s2 = some s3 :=
      sendRaw_mono f3 _ 8 s2 s3 h3 (le_trans (le_max_right _ _) (le_max_right _ _))
    refine ⟨max f1 (max f2 f3), s3, ?_, by rw [hl3, hl2, hl1], by rw [hd3, hd2, hd1],
      by rw [hi3, hi2, hi1], ?_⟩
    · simp only [send, if_pos hb, m1, Option.some_bind, m2, m3]
    · rw [he3, he2, he1]
      simp only [dataWrites_append, hp1, hp2, hp3, sendExpansion, if_pos hb]
      simp [dataWrites]
  · obtain ⟨f1, s1, p1, h1, hl1, hd1, hi1, he1, hp1⟩ := sendRaw_run b s h
    refine ⟨f1, s1, ?_, hl1, hd1, hi1, ?_⟩
    · simp only [send, if_neg hb, h1]
    · rw [he1]
      simp only [dataWrites_append, hp1, sendExpansion, if_neg hb]
      simp [dataWrites]

theorem write_str_mono : ∀ (bytes : List Nat) (fuel fuel' : Nat) (s : UartState)
    (r : Except Unit Unit × UartState),
    write_str fuel bytes s = some r → fuel ≤ fuel' → write_str fuel' bytes s = some r := by
  intro bytes
  induction bytes with
  | nil =>
    intro fuel fuel' s r h _
    simpa [write_str] using h
  | cons b rest ih =>
    intro fuel fuel' s r h hle
    simp only [write_str] at h ⊢
    cases h1 : send fuel b s with
    | none => rw [h1] at h; simp at h
    | some t =>
      rw [h1] at h
      simp only [Option.some_bind] at h
      rw [send_mono fuel fuel' b s t h1 hle, Option.some_bind]
      exact ih fuel fuel' t r h hle

theorem readyState_ready : EventuallyReady readyState := by
  intro i
  refine ⟨0, ?_⟩
  have : readyState.lsts (i + 0) = 0x20 := rfl
  rw [this]
  decide

theorem x86Send_eq_send (fuel b : Nat) (s : UartState) :
    x86Send fuel b s = send fuel b s := by
  by_cases hb : b = 8 ∨ b = 0x7F
  · simp only [x86Send, send, if_pos hb, sendRaw_eq_waitFor]
    cases waitFor fuel s with
    | none => simp
    | some t1 =>
      simp only [Option.map_some', Option.some_bind]
      cases waitFor fuel (writeReg Reg.data 8 t1) with
      | none => simp
      | some t2 => simp
  · simp only [x86Send, send, if_neg hb, sendRaw_eq_waitFor]

/-- Claim C5: for every line-status trace whose first output-empty poll
is poll `n`, `send_raw(b)` performs exactly `n + 1` line-status polls
(performing no data-register write while the bit is observed clear) and,
right after the first poll that observes the bit set, writes `b` to the
data register exactly once and returns. -/
theorem send_raw_polls_until_ready (fuel b n : Nat) (s : UartState)
    (hfuel : n < fuel)
    (hready : Nat.testBit (s.lsts (s.lstsIdx + n)) 5 = true)
    (hnot : ∀ j, j < n → Nat.testBit (s.lsts (s.lstsIdx + j)) 5 = false) :
    sendRaw fuel b s = some
      { s with lstsIdx := s.lstsIdx + (n + 1)
               events := s.events ++ pollReads s.lsts s.lstsIdx (n + 1) ++
                 [Event.write Reg.data b] } :=
  sendRaw_poll_write n fuel b s hfuel hready hnot

/-- Witness for claim C5, the spec scenario: line status reads 0x00 on
the first poll and 0x20 afterwards, so `send_raw(0x41)` observes exactly
one not-ready poll, then a ready poll, then writes 0x41 once. -/
theorem send_raw_polls_until_ready_witness :
    sendRaw 2 0x41 scenarioState = some
      { scenarioState with
          lstsIdx := 2
          events := [Event.read Reg.lineSts 0x00, Event.read Reg.lineSts 0x20,
                     Event.write Reg.data 0x41] } := by
  have h := send_raw_polls_until_ready 2 0x41 1 scenarioState (by decide)
    (by decide) (by decide)
  simpa [scenarioState, pollReads] using h

/-- Counterexample to claim C2 as stated: 0x0A is neither 0x08 nor 0x7F
and the line-status trace of `readyState` always has the output-empty
bit set, yet the port-mapped `send(0x0A)` performs two data-register
writes, 0x0D then 0x0A, instead of a single write of 0x0A. -/
theorem port_send_linefeed_two_writes :
    (0x0A : Nat) ≠ 0x08 ∧ (0x0A : Nat) ≠ 0x7F ∧ EventuallyReady readyState ∧
    Option.map (fun t => dataWrites t.events) (portSend 1 0x0A readyState) =
      some [0x0D, 0x0A] ∧
    some [0x0D, 0x0A] ≠ some [(0x0A : Nat)] := by
  exact ⟨by decide, by decide, readyState_ready, by rfl, by decide⟩

/-- Claim C2 (amended): for every byte b outside 0x08 and 0x7F, and
every line-status trace in which the output-empty bit is eventually set
before each write, the generic/mmio `send(b)` and the x86_64 `send(b)`
perform exactly one data-register write of value b; the port-mapped
`send(b)` does so as well except for b = 0x0A, which it sends as the two
writes 0x0D then 0x0A. -/
theorem send_nonspecial_single_write (b : Nat) (s : UartState)
    (h : EventuallyReady s) :
    (b ≠ 8 → b ≠ 0x7F →
      ∃ fuel s', send fuel b s = some s' ∧
        dataWrites s'.events = dataWrites s.events ++ [b]) ∧
    (b ≠ 8 → b ≠ 0x7F → b ≠ 0x0A →
      ∃ fuel s', portSend fuel b s = some s' ∧
        dataWrites s'.events = dataWrites s.events ++ [b]) ∧
    (b ≠ 8 → b ≠ 0x7F →
      ∃ fuel s', x86Send fuel b s = some s' ∧
        dataWrites s'.events = dataWrites s.events ++ [b]) ∧
    (∃ fuel s', portSend fuel 0x0A s = some s' ∧
      dataWrites s'.events = dataWrites s.events ++ [0x0D, 0x0A]) := by
  have hone : ∀ c : Nat, ∃ fuel s', sendRaw fuel c s = some s' ∧
      dataWrites s'.events = dataWrites s.events ++ [c] ∧ s'.lsts = s.lsts := by
    intro c
    obtain ⟨f1, s1, p1, h1, hl1, hd1, hi1, he1, hp1⟩ := sendRaw_run c s h
    refine ⟨f1, s1, h1, ?_, hl1⟩
    rw [he1]
    simp [dataWrites_append, hp1, dataWrites_cons_write_data, dataWrites_nil]
  refine ⟨?_, ?_, ?_, ?_⟩
  · intro h8 h7
    have hb : ¬(b = 8 ∨ b = 0x7F) := by tauto
    obtain ⟨f1, s1, h1, hw1, _⟩ := hone b
    exact ⟨f1, s1, by simp only [send, if_neg hb, h1], hw1⟩
  · intro h8 h7 hA
    have hb : ¬(b = 8 ∨ b = 0x7F) := by tauto
    obtain ⟨f1, s1, h1, hw1, _⟩ := hone b
    exact ⟨f1, s1, by simp only [portSend, if_neg hb, if_neg hA, h1], hw1⟩
  · intro h8 h7
    have hb : ¬(b = 8 ∨ b = 0x7F) := by tauto
    obtain ⟨f1, s1, h1, hw1, _⟩ := hone b
    refine ⟨f1, s1, ?_, hw1⟩
    rw [x86Send_eq_send]
    simp only [send, if_neg hb, h1]
  · obtain ⟨f1, s1, p1, h1, hl1, hd1, hi1, he1, hp1⟩ := sendRaw_run 0x0D s h
    have hE1 : EventuallyReady s1 := by intro i; rw [hl1]; exact h i
    obtain ⟨f2, s2, p2, h2, hl2, hd2, hi2, he2, hp2⟩ := sendRaw_run 0x0A s1 hE1
    have m1 : sendRaw (max f1 f2) 0x0D s = some s1 :=
      sendRaw_mono f1 _ 0x0D s s1 h1 (le_max_left _ _)
    have m2 : sendRaw (max f1 f2) 0x0A s1 = some s2 :=
      sendRaw_mono f2 _ 0x0A s1 s2 h2 (le_max_right _ _)
    refine ⟨max f1 f2, s2, ?_, ?_⟩
    · simp only [portSend]
      norm_num
      rw [m1, Option.some_bind, m2]
    · rw [he2, he1]
      simp [dataWrites_append, hp1, hp2, dataWrites_cons_write_data, dataWrites_nil]

/-- Witness for claim C2 at b = 0x41 on an always-ready trace. -/
theorem send_nonspecial_single_write_witness :
    (∃ fuel s', send fuel 0x41 readyState = some s' ∧
      dataWrites s'.events = dataWrites readyState.events ++ [0x41]) ∧
    (∃ fuel s', portSend fuel 0x41 readyState = some s' ∧
      dataWrites s'.events = dataWrites readyState.events ++ [0x41]) ∧
    (∃ fuel s', x86Send fuel 0x41 readyState = some s' ∧
      dataWrites s'.events = dataWrites readyState.events ++ [0x41]) ∧
    (∃ fuel s', portSend fuel 0x0A readyState = some s' ∧
      dataWrites s'.events = dataWrites readyState.events ++ [0x0D, 0x0A]) := by
  have h := send_nonspecial_single_write 0x41 readyState readyState_ready
  exact ⟨h.1 (by decide) (by decide), h.2.1 (by decide) (by decide) (by decide),
    h.2.2.1 (by decide) (by decide), h.2.2.2⟩

/-- Claim C6: for b = 0x08 and for b = 0x7F, with the output-empty bit
eventually set before each write, every variant of `send` (generic/mmio,
port-mapped, x86_64) performs exactly three data-register writes, in
order 0x08, then 0x20, then 0x08. -/
theorem send_backspace_three_writes (b : Nat) (s : UartState)
    (hb : b = 8 ∨ b = 0x7F) (h : EventuallyReady s) :
    ∃ fuel s', send fuel b s = some s' ∧ portSend fuel b s = some s' ∧
      x86Send fuel b s = some s' ∧
      dataWrites s'.events = dataWrites s.events ++ [0x08, 0x20, 0x08] := by
  obtain ⟨fuel, s', hs, hl, hd, hi, hw⟩ := send_run b s h
  have hport : portSend fuel b s = send fuel b s := by
    simp only [portSend, send, if_pos hb]
  refine ⟨fuel, s', hs, by rw [hport, hs], by rw [x86Send_eq_send, hs], ?_⟩
  rw [hw]
  simp only [sendExpansion, if_pos hb]

/-- Witness for claim C6 at b = 0x08 on an always-ready trace. -/
theorem send_backspace_three_writes_witness :
    ∃ fuel s', send fuel 8 readyState = some s' ∧
      portSend fuel 8 readyState = some s' ∧
      x86Send fuel 8 readyState = some s' ∧
      dataWrites s'.events = dataWrites readyState.events ++ [0x08, 0x20, 0x08] :=
  send_backspace_three_writes 8 readyState (Or.inl rfl) readyState_ready

/-- Claim C9: `write_str(s)` sends each byte of the sequence through
`send`, in order and with no other sends (the data-register write trace
is exactly the concatenation of each byte's send expansion, in byte
order), and always returns Ok. -/
theorem write_str_sends_in_order (bytes : List Nat) (s : UartState)
    (h : EventuallyReady s) :
    ∃ fuel r s', write_str fuel bytes s = some (r, s') ∧ r = Except.ok () ∧
      dataWrites s'.events =
        dataWrites s.events ++ (bytes.map sendExpansion).flatten := by
  induction bytes generalizing s with
  | nil => exact ⟨1, Except.ok (), s, rfl, rfl, by simp⟩
  | cons b rest ih =>
    obtain ⟨f1, s1, h1, hl1, hd1, hi1, hw1⟩ := send_run b s h
    have hE1 : EventuallyReady s1 := by intro i; rw [hl1]; exact h i
    obtain ⟨f2, r, s2, h2, hr, hw2⟩ := ih s1 hE1
    refine ⟨max f1 f2, r, s2, ?_, hr, ?_⟩
    · simp only [write_str]
      rw [send_mono f1 (max f1 f2) b s s1 h1 (le_max_left _ _), Option.some_bind]
      exact write_str_mono rest f2 (max f1 f2) s1 (r, s2) h2 (le_max_right _ _)
    · rw [hw2, hw1]
      simp [List.append_assoc]

/-- Witness for claim C9 on the byte sequence 0x48, 0x08 over an
always-ready trace: the data writes are 0x48 then the backspace
expansion 0x08, 0x20, 0x08, and the result is Ok. -/
theorem write_str_sends_in_order_witness :
    ∃ fuel r s', write_str fuel [0x48, 0x08] readyState = some (r, s') ∧
      r = Except.ok () ∧
      dataWrites s'.events =
        dataWrites readyState.events ++ [0x48, 0x08, 0x20, 0x08] := by
  have h := write_str_sends_in_order [0x48, 0x08] readyState readyState_ready
  simpa [sendExpansion] using h

/-- Witness for claim C3: on a never-ready trace `try_send_raw(0x42)`
blocks without writing, and on an always-ready trace it writes 0x42
exactly once. -/
theorem trySendRaw_blocks_or_writes_witness :
    trySendRaw 0x42 idleState =
      (Except.error WouldBlockError.mk,
       { idleState with lstsIdx := 1, events := [Event.read Reg.lineSts 0x00] }) ∧
    trySendRaw 0x42 readyState =
      (Except.ok (),
       { readyState with
           lstsIdx := 1
           events := [Event.read Reg.lineSts 0x20, Event.write Reg.data 0x42] }) := by
  constructor
  · have h := (trySendRaw_blocks_or_writes idleState 0x42).1 (by decide)
    simpa [idleState] using h
  · have h := (trySendRaw_blocks_or_writes readyState 0x42).2 (by decide)
    simpa [readyState] using h

/-- Witness for claim C4: with the data-ready bit set `try_receive()`
reads and returns the data byte 0x55, and with it clear it blocks
without reading the data register. -/
theorem tryReceive_blocks_or_reads_witness :
    tryReceive rxReadyState =
      (Except.ok 0x55,
       { rxReadyState with
           lstsIdx := 1
           dataIdx := 1
           events := [Event.read Reg.lineSts 0x01, Event.read Reg.data 0x55] }) ∧
    tryReceive idleState =
      (Except.error WouldBlockError.mk,
       { idleState with lstsIdx := 1, events := [Event.read Reg.lineSts 0x00] }) := by
  constructor
  · have h := (tryReceive_blocks_or_reads rxReadyState).1 (by decide)
    simpa [rxReadyState] using h
  · have h := (tryReceive_blocks_or_reads idleState).2 (by decide)
    simpa [idleState] using h

/-- Witness for claim C8 at the conventional bases: a memory-mapped
register set at 0x1000_0000 with stride 4 and the port-mapped sets at
0x3F8 with stride 1. -/
theorem register_layout_witness :
    new_with_stride 0x10000000 4 =
      { data := 0x10000000, int_en := 0x10000004, fifo_ctrl := 0x10000008,
        line_ctrl := 0x1000000C, modem_ctrl := 0x10000010, line_sts := 0x10000014 } ∧
    mmioNew 0x10000000 = new_with_stride 0x10000000 1 ∧
    (port_data 0x3F8 = 0x3F8 ∧ port_int_en 0x3F8 = 0x3F9 ∧
     port_fifo_ctrl 0x3F8 = 0x3FA ∧ port_line_ctrl 0x3F8 = 0x3FB ∧
     port_modem_ctrl 0x3F8 = 0x3FC ∧ port_line_sts 0x3F8 = 0x3FD ∧
     x86New 0x3F8 =
       { data := 0x3F8, int_en := 0x3F9, fifo_ctrl := 0x3FA,
         line_ctrl := 0x3FB, modem_ctrl := 0x3FC, line_sts := 0x3FD }) := by
  have h1 := (register_layout 0x10000000 4).1 (by norm_num [USIZE_MOD])
  have h2 := (register_layout 0x3F8 1).2.2 (by norm_num [U16_MOD])
  exact ⟨by simpa using h1, (register_layout 0x10000000 4).2.1, by simpa using h2⟩

/-- Witness for claim C10: with loopback reads returning 0xAE the
creation succeeds with the full trace, and with reads returning 0x55 it
fails right after the loopback read. -/
theorem try_create_loopback_witness :
    try_create 0x3F8 loopbackOkState =
      (Except.ok 0x3F8,
       { loopbackOkState with
           dataIdx := 1
           events := initWrites ++
           [Event.write Reg.intEn 0x00, Event.write Reg.modemCtrl 0x1E,
            Event.write Reg.data 0xAE, Event.read Reg.data 0xAE,
            Event.write Reg.modemCtrl 0x0B, Event.write Reg.intEn 0x01] }) ∧
    try_create 0x3F8 idleState =
      (Except.error (),
       { idleState with
           dataIdx := 1
           events := initWrites ++
           [Event.write Reg.intEn 0x00, Event.write Reg.modemCtrl 0x1E,
            Event.write Reg.data 0xAE, Event.read Reg.data 0x55] }) := by
  constructor
  · have h := (try_create_loopback 0x3F8 loopbackOkState).2.1 (by decide)
    simpa [loopbackOkState, U16_MOD] using h
  · have h := (try_create_loopback 0x3F8 idleState).2.2 (by decide)
    simpa [idleState] using h
